import Mathlib

/-!
Shallow embedding of the JSON-normalization-and-flattening core of the
pdf_extraction_system repository, together with proofs checking the claims
of its specification.

The embedded code lives in two source modules:
  * `app/pipeline/schema.py`   — `validate_json_structure`, `_clean_data`
  * `app/pipeline/excel_writer.py` — `ExcelWriter._flatten_section`,
    `ExcelWriter._format_value`, `ExcelWriter.json_to_dataframe`,
    `ExcelWriter.json_to_excel`

Python values flowing through this core are JSON-like trees: mappings with
string keys, lists, strings, integers, booleans and None.  The embedding
models them with the inductive `JsonValue`.  JSON floats are not modelled
(the claims under check involve none); the embedded JSON parser is
correspondingly partial: it rejects numeric tokens that Python would parse
as floats.  String primitives used by the source (`str.strip`, `str.lower`,
`str.startswith`, `str.split`, `"\n".join`) are re-implemented over
`List Char` so that their behaviour is fully transparent to proofs.
-/

/-- A JSON-like Python value: `None`, `bool`, `int`, `str`, `list`, `dict`
(string keys, insertion ordered).  This is the dynamically-typed tree the
pipeline operates on. -/
inductive JsonValue : Type where
  | null : JsonValue
  | bool : Bool → JsonValue
  | int : Int → JsonValue
  | str : String → JsonValue
  | list : List JsonValue → JsonValue
  | obj : List (String × JsonValue) → JsonValue
deriving Repr

namespace PyStr

/-- The characters Python `str.strip()` removes (the ASCII whitespace set;
Python additionally strips some rare Unicode spaces, outside our fragment). -/
def isPyWs (c : Char) : Bool :=
  c = ' ' || c = '\t' || c = '\n' || c = '\r' || c = '\x0b' || c = '\x0c'

/-- Remove trailing characters satisfying `isPyWs`. -/
def dropTrailingWs : List Char → List Char
  | [] => []
  | c :: cs =>
    match dropTrailingWs cs with
    | [] => if isPyWs c then [] else [c]
    | r => c :: r

/-- Python `str.strip()` on a character list. -/
def stripList (l : List Char) : List Char :=
  dropTrailingWs (l.dropWhile isPyWs)

/-- Python `str.strip()`. -/
def pyStrip (s : String) : String := ⟨stripList s.data⟩

/-- Python `str.lower()` (ASCII fragment). -/
def pyLower (s : String) : String := ⟨s.data.map Char.toLower⟩

/-- Python `s.startswith(p)`. -/
def pyStartsWith (s p : String) : Bool := p.data.isPrefixOf s.data

/-- Python `s.split("\n")`: split at every newline, keeping empty pieces;
the empty string yields one empty piece. -/
def splitOnNl : List Char → List (List Char)
  | [] => [[]]
  | c :: cs =>
    if c = '\n' then [] :: splitOnNl cs
    else
      match splitOnNl cs with
      | [] => [[c]]
      | l :: ls => (c :: l) :: ls

/-- Python `"\n".join(...)` on character lists. -/
def joinNl : List (List Char) → List Char
  | [] => []
  | [l] => l
  | l :: ls => l ++ '\n' :: joinNl ls

end PyStr

/-- Python `str(n)` for an `int`. -/
def pyIntStr (n : Int) : String := toString n

mutual

/-- Python `repr` of a JSON-like value (the form used when a value is
printed inside a container).  Strings are wrapped in single quotes; the
escaping Python applies to quotes/backslashes inside them is outside our
fragment. -/
def pyRepr : JsonValue → String
  | .null => "None"
  | .bool true => "True"
  | .bool false => "False"
  | .int n => pyIntStr n
  | .str s => "\x27" ++ s ++ "\x27"
  | .list xs => "[" ++ pyReprItems xs ++ "]"
  | .obj kvs => "\x7b" ++ pyReprEntries kvs ++ "\x7d"

def pyReprItems : List JsonValue → String
  | [] => ""
  | [x] => pyRepr x
  | x :: rest => pyRepr x ++ ", " ++ pyReprItems rest

def pyReprEntries : List (String × JsonValue) → String
  | [] => ""
  | [(k, v)] => "\x27" ++ k ++ "\x27: " ++ pyRepr v
  | (k, v) :: rest => "\x27" ++ k ++ "\x27: " ++ pyRepr v ++ ", " ++ pyReprEntries rest

end

/-- Python `str(v)`: a string is itself, everything else prints as its
`repr`. -/
def pyStr : JsonValue → String
  | .str s => s
  | v => pyRepr v

/-- Python `type(v).__name__` for the modelled value universe. -/
def pyTypeName : JsonValue → String
  | .null => "NoneType"
  | .bool _ => "bool"
  | .int _ => "int"
  | .str _ => "str"
  | .list _ => "list"
  | .obj _ => "dict"

/-- Python `d[k] = v` on an insertion-ordered dict rendered as an
association list: an existing key keeps its position and gets the new
value, a fresh key is appended. -/
def dictInsert (kvs : List (String × JsonValue)) (k : String) (v : JsonValue) :
    List (String × JsonValue) :=
  if kvs.any (fun p => p.1 = k) then
    kvs.map (fun p => if p.1 = k then (k, v) else p)
  else kvs ++ [(k, v)]

/-- Python `k in d` (case-sensitive key membership). -/
def hasKey (kvs : List (String × JsonValue)) (k : String) : Bool :=
  kvs.any (fun p => p.1 = k)

/-- Python `d.get(k, dflt)`. -/
def dictGetD (kvs : List (String × JsonValue)) (k : String) (dflt : JsonValue) :
    JsonValue :=
  match kvs.find? (fun p => p.1 = k) with
  | some p => p.2
  | none => dflt

/-! ### A model of `json.loads` (strict JSON parse)

`validate_json_structure` calls Python's `json.loads` on string input.
The parser below models it on the fragment without floats: a numeric token
followed by `.`/`e`/`E` (a Python float) is rejected, and `\u` string
escapes are not modelled.  Everything else follows the JSON grammar as
`json.loads` accepts it: the four JSON whitespace characters, strict
rejection of raw control characters inside strings, no leading zeros,
full-input consumption, and last-value-wins duplicate object keys. -/

/-- The four whitespace characters the JSON grammar (and `json.loads`)
skips between tokens. -/
def jsonWsChar (c : Char) : Bool := c = ' ' || c = '\t' || c = '\n' || c = '\r'

/-- Skip JSON inter-token whitespace. -/
def skipWs (cs : List Char) : List Char := cs.dropWhile jsonWsChar

/-- Parse the body of a JSON string literal (the opening quote already
consumed), handling the single-character escapes; `\u` escapes are outside
the modelled fragment. -/
def parseStringBody : List Char → List Char → Option (String × List Char)
  | [], _ => none
  | '"' :: rest, acc => some (⟨acc.reverse⟩, rest)
  | ['\\'], _ => none
  | '\\' :: e :: rest, acc =>
    if e = '"' then parseStringBody rest ('"' :: acc)
    else if e = '\\' then parseStringBody rest ('\\' :: acc)
    else if e = '/' then parseStringBody rest ('/' :: acc)
    else if e = 'n' then parseStringBody rest ('\n' :: acc)
    else if e = 't' then parseStringBody rest ('\t' :: acc)
    else if e = 'r' then parseStringBody rest ('\r' :: acc)
    else if e = 'b' then parseStringBody rest ('\x08' :: acc)
    else if e = 'f' then parseStringBody rest ('\x0c' :: acc)
    else none
  | c :: rest, acc =>
    if c.toNat < 32 then none else parseStringBody rest (c :: acc)

/-- Take a maximal run of decimal digits. -/
def takeDigits : List Char → List Char × List Char
  | [] => ([], [])
  | c :: cs =>
    if c.isDigit then
      match takeDigits cs with
      | (d, r) => (c :: d, r)
    else ([], c :: cs)

/-- Parse a non-negative JSON integer token (no leading zeros). -/
def parseDigitsStrict (cs : List Char) : Option (Nat × List Char) :=
  match takeDigits cs with
  | ([], _) => none
  | (['0'], rest) => some (0, rest)
  | ('0' :: _ :: _, _) => none
  | (ds, rest) => some (ds.foldl (fun a c => a * 10 + (c.toNat - 48)) 0, rest)

/-- Parse a JSON number restricted to integers; a float continuation
(`.`, `e`, `E`) makes the parse fail (outside the modelled fragment). -/
def parseNumber (cs : List Char) : Option (JsonValue × List Char) :=
  let core : List Char → Bool → Option (JsonValue × List Char) := fun l neg =>
    match parseDigitsStrict l with
    | some (n, rest) =>
      match rest with
      | c :: _ =>
        if c = '.' || c = 'e' || c = 'E' then none
        else some (.int (if neg then -(n : Int) else (n : Int)), rest)
      | [] => some (.int (if neg then -(n : Int) else (n : Int)), [])
    | none => none
  match cs with
  | '-' :: rest => core rest true
  | _ => core cs false

mutual

/-- Parse one JSON value, dispatching on the first non-whitespace
character exactly as the JSON grammar does.  `fuel` bounds recursion
depth; `jsonLoads` supplies enough for any input of its length. -/
def parseValue : Nat → List Char → Option (JsonValue × List Char)
  | 0, _ => none
  | fuel + 1, cs =>
    match skipWs cs with
    | [] => none
    | c :: rest =>
      if c = '"' then
        match parseStringBody rest [] with
        | some (s, r) => some (.str s, r)
        | none => none
      else if c = '\x7b' then parseObjFirst fuel rest
      else if c = '[' then parseArrFirst fuel rest
      else if c = 't' then
        if ("rue".data).isPrefixOf rest then some (.bool true, rest.drop 3) else none
      else if c = 'f' then
        if ("alse".data).isPrefixOf rest then some (.bool false, rest.drop 4) else none
      else if c = 'n' then
        if ("ull".data).isPrefixOf rest then some (.null, rest.drop 3) else none
      else if c = '-' || c.isDigit then parseNumber (c :: rest)
      else none

/-- After an opening brace: an immediate closing brace yields the empty
dict, otherwise parse the members. -/
def parseObjFirst : Nat → List Char → Option (JsonValue × List Char)
  | 0, _ => none
  | fuel + 1, cs =>
    match skipWs cs with
    | '\x7d' :: r => some (.obj [], r)
    | _ => parseMembers fuel cs []

/-- Parse `"key": value` members separated by commas until the closing
brace; duplicate keys overwrite in place as Python dict assignment does. -/
def parseMembers : Nat → List Char → List (String × JsonValue) →
    Option (JsonValue × List Char)
  | 0, _, _ => none
  | fuel + 1, cs, acc =>
    match skipWs cs with
    | '"' :: r =>
      match parseStringBody r [] with
      | some (k, r2) =>
        match skipWs r2 with
        | ':' :: r3 =>
          match parseValue fuel r3 with
          | some (v, r4) =>
            match skipWs r4 with
            | ',' :: r5 => parseMembers fuel r5 (dictInsert acc k v)
            | '\x7d' :: r5 => some (.obj (dictInsert acc k v), r5)
            | _ => none
          | none => none
        | _ => none
      | none => none
    | _ => none

/-- After an opening bracket: an immediate closing bracket yields the
empty list, otherwise parse the elements. -/
def parseArrFirst : Nat → List Char → Option (JsonValue × List Char)
  | 0, _ => none
  | fuel + 1, cs =>
    match skipWs cs with
    | ']' :: r => some (.list [], r)
    | _ => parseElems fuel cs []

/-- Parse comma-separated array elements until the closing bracket. -/
def parseElems : Nat → List Char → List JsonValue → Option (JsonValue × List Char)
  | 0, _, _ => none
  | fuel + 1, cs, acc =>
    match parseValue fuel cs with
    | some (v, r) =>
      match skipWs r with
      | ',' :: r2 => parseElems fuel r2 (acc ++ [v])
      | ']' :: r2 => some (.list (acc ++ [v]), r2)
      | _ => none
    | none => none

end

/-- Model of Python `json.loads`: parse one value and require that only
whitespace remains. -/
def jsonLoads (s : String) : Option JsonValue :=
  match parseValue (4 * s.data.length + 8) s.data with
  | some (v, rest) => if skipWs rest = [] then some v else none
  | none => none

/-! ### Markdown-fence recovery (schema.py lines 68-91) -/

/-- A line whose stripped form starts with three backticks
(`line.strip().startswith("```")`). -/
def isFenceLine (l : List Char) : Bool :=
  ("```".data).isPrefixOf (PyStr.stripList l)

/-- `start_idx`: one past the first fence line, `0` if no line matches
(the loop's initial value). -/
def fenceStartIdx (lines : List (List Char)) : Nat :=
  match lines.findIdx? isFenceLine with
  | some i => i + 1
  | none => 0

/-- `end_idx`: the source scans `range(len(lines)-1, start_idx, -1)` and
stops at the first fence line, i.e. the largest fence-line index strictly
above `startIdx`; defaults to `len(lines)`. -/
def fenceEndIdx (lines : List (List Char)) (startIdx : Nat) : Nat :=
  match ((lines.enum.drop (startIdx + 1)).filter (fun p => isFenceLine p.2)).getLast? with
  | some p => p.1
  | none => lines.length

/-- The recovered interior `"\n".join(lines[start_idx:end_idx])` of a
stripped string that starts with a fence. -/
def extractFenced (t : String) : String :=
  let lines := PyStr.splitOnNl t.data
  let s := fenceStartIdx lines
  ⟨PyStr.joinNl ((lines.drop s).take (fenceEndIdx lines s - s))⟩

/-! ### `_clean_data` (schema.py lines 121-154) -/

mutual

/-- Embedding of `_clean_data`: non-dicts pass through, dicts are rebuilt
key by key. -/
def clean_data : JsonValue → JsonValue
  | .obj kvs => .obj (cleanEntries kvs [])
  | v => v

/-- The `for key, value in data.items()` loop of `_clean_data`, building
the `cleaned` dict by Python assignment (`dictInsert`). -/
def cleanEntries : List (String × JsonValue) → List (String × JsonValue) →
    List (String × JsonValue)
  | [], acc => acc
  | (k, v) :: rest, acc =>
    cleanEntries rest (dictInsert acc (PyStr.pyStrip k) (cleanFieldValue v))

/-- Per-value dispatch of the `_clean_data` loop body: recurse into dicts,
map over lists (dict elements only), strip non-empty strings
(`value.strip() if value else value`), pass anything else through. -/
def cleanFieldValue : JsonValue → JsonValue
  | .obj kvs => .obj (cleanEntries kvs [])
  | .list items => .list (cleanItems items)
  | .str s => .str (if s = "" then s else PyStr.pyStrip s)
  | v => v

/-- `[_clean_data(item) if isinstance(item, dict) else item for item in value]`. -/
def cleanItems : List JsonValue → List JsonValue
  | [] => []
  | .obj kvs :: rest => .obj (cleanEntries kvs []) :: cleanItems rest
  | x :: rest => x :: cleanItems rest

end

/-! ### `validate_json_structure` (schema.py lines 50-118) -/

/-- Embedding of pydantic `ValidationResult`. -/
structure ValidationResult where
  is_valid : Bool
  data : Option (List (String × JsonValue))
  errors : List String
  warnings : List String
deriving Repr

/-- The error recorded on a double parse failure.  The Python message is
`f"Failed to parse JSON: {e}"` with the decoder's detail text; the detail
is not modelled, only the fact that exactly this one error is appended. -/
def parseFailureMsg : String := "Failed to parse JSON"

/-- `"Extracted data is empty"`. -/
def emptyDataMsg : String := "Extracted data is empty"

/-- `f"Expected dictionary, got {type(data).__name__}"`. -/
def typeErrorMsg (v : JsonValue) : String :=
  "Expected dictionary, got " ++ pyTypeName v

/-- `"Data has very few sections. Extraction might be incomplete."`. -/
def fewSectionsWarning : String :=
  "Data has very few sections. Extraction might be incomplete."

/-- The checks `validate_json_structure` runs once it holds a structured
value (lines 96-118): must be a dict, must be non-empty, then clean and
warn when fewer than two sections remain. -/
def checkStructure (v : JsonValue) : ValidationResult :=
  match v with
  | .obj [] => ⟨false, none, [emptyDataMsg], []⟩
  | .obj kvs =>
    let cleaned := cleanEntries kvs []
    ⟨true, some cleaned, [],
      if cleaned.length < 2 then [fewSectionsWarning] else []⟩
  | v => ⟨false, none, [typeErrorMsg v], []⟩

/-- The triple-backtick fence marker. -/
def fenceToken : String := "```"

/-- Embedding of `validate_json_structure`: strings go through
`json.loads`, falling back to markdown-fence recovery; structured values
go straight to the shape checks. -/
def validate_json_structure (input : JsonValue) : ValidationResult :=
  match input with
  | .str s =>
    match jsonLoads s with
    | some v => checkStructure v
    | none =>
      let t := PyStr.pyStrip s
      if PyStr.pyStartsWith t fenceToken then
        match jsonLoads (extractFenced t) with
        | some v => checkStructure v
        | none => ⟨false, none, [parseFailureMsg], []⟩
      else ⟨false, none, [parseFailureMsg], []⟩
  | v => checkStructure v

/-! ### `ExcelWriter` flattening (excel_writer.py) -/

/-- The key name compared case-insensitively when skipping comment
entries. -/
def commentsKeyName : String := "comments"

/-- One flattened row before numbering: `{"key": ..., "value": ...,
"comments": ...}`.  The comment is kept as a raw value because the source
stores `value.get("comments", "")` without string coercion. -/
structure Row where
  key : String
  value : String
  comments : JsonValue
deriving Repr

/-- Embedding of `_format_value` (lines 161-172). -/
def format_value : JsonValue → String
  | .list xs => String.intercalate ", " (xs.map pyStr)
  | .obj kvs =>
    let filtered := kvs.filter (fun p => PyStr.pyLower p.1 != commentsKeyName)
    if filtered.isEmpty then ""
    else String.intercalate "; " (filtered.map (fun p => p.1 ++ ": " ++ pyStr p.2))
  | .null => ""
  | v => pyStr v

/-- Dict-section loop of `_flatten_section` (lines 99-120): skip
`"comments"` keys case-insensitively; when the value is a dict containing
a case-sensitive `"comments"` key, pull it out as the row comment and
display either the `"text"` field or the remainder of the dict with the
exact key `"comments"` removed. -/
def flattenObjEntries : List (String × JsonValue) → List Row
  | [] => []
  | (key, value) :: rest =>
    if PyStr.pyLower key == commentsKeyName then flattenObjEntries rest
    else
      let cv : JsonValue × JsonValue :=
        match value with
        | .obj kvs =>
          if hasKey kvs commentsKeyName then
            (dictGetD kvs commentsKeyName (.str ""),
              if hasKey kvs "text" then dictGetD kvs "text" (.str "")
              else .obj (kvs.filter (fun p => p.1 != commentsKeyName)))
          else (.str "", value)
        | _ => (.str "", value)
      ⟨key, format_value cv.2, cv.1⟩ :: flattenObjEntries rest

/-- One dict item of a list section (lines 125-143): a row per
non-comment key, the item comment on the first emitted key only
(tracked by the `first_key` flag). -/
def flattenItemEntries : List (String × JsonValue) → JsonValue → Bool → List Row
  | [], _, _ => []
  | (key, value) :: rest, itemComment, firstKey =>
    if PyStr.pyLower key == commentsKeyName then
      flattenItemEntries rest itemComment firstKey
    else
      ⟨key, format_value value, if firstKey then itemComment else .str ""⟩ ::
        flattenItemEntries rest itemComment false

/-- List-section loop of `_flatten_section` (lines 122-150); `idx` is the
0-based `enumerate` index used for scalar items. -/
def flattenListItems : List JsonValue → Nat → List Row
  | [], _ => []
  | .obj kvs :: rest, idx =>
    flattenItemEntries kvs (dictGetD kvs commentsKeyName (.str "")) true ++
      flattenListItems rest (idx + 1)
  | item :: rest, idx =>
    ⟨"item_" ++ toString (idx + 1), pyStr item, .str ""⟩ :: flattenListItems rest (idx + 1)

/-- Embedding of `_flatten_section` (lines 84-159). -/
def flatten_section (sectionName : String) (sectionData : JsonValue) : List Row :=
  match sectionData with
  | .obj kvs => flattenObjEntries kvs
  | .list items => flattenListItems items 0
  | v => [⟨sectionName, pyStr v, .str ""⟩]

/-- A numbered output row (`[row_number, key, value, comments]` /
a DataFrame record). -/
structure IndexedRow where
  idx : Nat
  key : String
  value : String
  comments : JsonValue
deriving Repr

/-- Number a block of rows starting at `n`, incrementing by one per row. -/
def numberRows : List Row → Nat → List IndexedRow
  | [], _ => []
  | r :: rest, n => ⟨n, r.key, r.value, r.comments⟩ :: numberRows rest (n + 1)

/-- Loop of `json_to_dataframe` (lines 214-227): the `row_number` counter
is shared across sections, advancing by each section's row count. -/
def dataframeLoop : List (String × JsonValue) → Nat → List IndexedRow
  | [], _ => []
  | (name, sd) :: rest, n =>
    numberRows (flatten_section name sd) n ++
      dataframeLoop rest (n + (flatten_section name sd).length)

/-- Embedding of `json_to_dataframe`: records with the counter seeded
at 1. -/
def json_to_dataframe (data : List (String × JsonValue)) : List IndexedRow :=
  dataframeLoop data 1

/-- Loop of `json_to_excel` (lines 53-68): the same emission with shared
`row_number` seeded at 1 (the separate `current_row` counter only drives
cell styling, not emitted values). -/
def excelLoop : List (String × JsonValue) → Nat → List IndexedRow
  | [], _ => []
  | (name, sd) :: rest, n =>
    numberRows (flatten_section name sd) n ++
      excelLoop rest (n + (flatten_section name sd).length)

/-- The data rows `json_to_excel` appends below the header. -/
def json_to_excel_rows (data : List (String × JsonValue)) : List IndexedRow :=
  excelLoop data 1

/-! ## Theorems -/

theorem range'_join (s m n : Nat) :
    List.range' s m ++ List.range' (s + m) n = List.range' s (m + n) := by
  rw [Nat.add_comm m n]
  have h := List.range'_append s m n 1
  rwa [Nat.one_mul] at h

theorem numberRows_length (rows : List Row) (n : Nat) :
    (numberRows rows n).length = rows.length := by
  induction rows generalizing n with
  | nil => rfl
  | cons r rest ih => simp [numberRows, ih]

theorem numberRows_idx (rows : List Row) (n : Nat) :
    (numberRows rows n).map (fun r => r.idx) = List.range' n rows.length := by
  induction rows generalizing n with
  | nil => rfl
  | cons r rest ih => simp [numberRows, ih, List.range'_succ]

theorem excelLoop_eq_dataframeLoop (data : List (String × JsonValue)) (n : Nat) :
    excelLoop data n = dataframeLoop data n := by
  induction data generalizing n with
  | nil => rfl
  | cons p rest ih => simp [excelLoop, dataframeLoop, ih]

theorem dataframeLoop_idx (data : List (String × JsonValue)) (n : Nat) :
    (dataframeLoop data n).map (fun r => r.idx) =
      List.range' n (dataframeLoop data n).length := by
  induction data generalizing n with
  | nil => rfl
  | cons p rest ih =>
    obtain ⟨name, sd⟩ := p
    simp only [dataframeLoop, List.map_append, List.length_append, numberRows_idx,
      numberRows_length, ih]
    exact range'_join n (flatten_section name sd).length _

/-- C1: every mapping passed to `json_to_dataframe` / `json_to_excel`
yields rows numbered `1, 2, ..., k` with no gaps, where `k` is the total
number of emitted rows; the counter is shared across all top-level
sections rather than reset per section (the index list is a single
`range'` over the whole output). -/
theorem claim_C1_row_indices_gapless (data : List (String × JsonValue)) :
    (json_to_dataframe data).map (fun r => r.idx) =
        List.range' 1 (json_to_dataframe data).length ∧
    (json_to_excel_rows data).map (fun r => r.idx) =
        List.range' 1 (json_to_excel_rows data).length := by
  constructor
  · exact dataframeLoop_idx data 1
  · show (excelLoop data 1).map _ = List.range' 1 (excelLoop data 1).length
    rw [excelLoop_eq_dataframeLoop]
    exact dataframeLoop_idx data 1

theorem parseValue_bad_head (fuel : Nat) (cs : List Char) (c : Char) (rest : List Char)
    (h : skipWs cs = c :: rest)
    (hc : c = '`' ∨ c = '\x0b' ∨ c = '\x0c') :
    parseValue fuel cs = none := by
  cases fuel with
  | zero => rfl
  | succ fuel =>
    rcases hc with hc | hc | hc <;> subst hc <;> simp [parseValue, h]

theorem pyWs_not_jsonWs (c : Char) (hw : PyStr.isPyWs c = true)
    (hj : jsonWsChar c = false) : c = '\x0b' ∨ c = '\x0c' := by
  simp only [PyStr.isPyWs, Bool.or_eq_true, decide_eq_true_eq] at hw
  simp only [jsonWsChar, Bool.or_eq_false_iff, decide_eq_false_iff_not] at hj
  tauto

theorem dropTrailingWs_head (c : Char) (cs : List Char) (hw : PyStr.isPyWs c = false) :
    ∃ r, PyStr.dropTrailingWs (c :: cs) = c :: r := by
  rw [PyStr.dropTrailingWs]
  cases PyStr.dropTrailingWs cs with
  | nil => exact ⟨[], by simp [hw]⟩
  | cons a r => exact ⟨a :: r, rfl⟩

theorem skipWs_head_of_strip_backtick (l t : List Char)
    (h : PyStr.stripList l = '`' :: t) :
    ∃ c rest, skipWs l = c :: rest ∧ (c = '`' ∨ c = '\x0b' ∨ c = '\x0c') := by
  induction l with
  | nil => simp [PyStr.stripList, PyStr.dropTrailingWs] at h
  | cons c cs ih =>
    by_cases hw : PyStr.isPyWs c = true
    · have hstrip : PyStr.stripList (c :: cs) = PyStr.stripList cs := by
        simp [PyStr.stripList, List.dropWhile, hw]
      by_cases hj : jsonWsChar c = true
      · have hskip : skipWs (c :: cs) = skipWs cs := by
          simp [skipWs, List.dropWhile, hj]
        obtain ⟨d, rest, hd, hset⟩ := ih (hstrip ▸ h)
        exact ⟨d, rest, hskip ▸ hd, hset⟩
      · refine ⟨c, cs, ?_, Or.inr (pyWs_not_jsonWs c hw (by simpa using hj))⟩
        simp [skipWs, List.dropWhile, hj]
    · have hw' : PyStr.isPyWs c = false := by simpa using hw
      have hstrip : PyStr.stripList (c :: cs) = PyStr.dropTrailingWs (c :: cs) := by
        simp [PyStr.stripList, List.dropWhile, hw']
      obtain ⟨r, hr⟩ := dropTrailingWs_head c cs hw'
      have hc : c = '`' := by
        rw [hstrip, hr] at h
        exact (List.cons.injEq .. ▸ h).1
      have hj : jsonWsChar c = false := by subst hc; rfl
      refine ⟨c, cs, ?_, Or.inl hc⟩
      simp [skipWs, List.dropWhile, hj]

theorem strip_backtick_of_startsWith (s : String)
    (h : PyStr.pyStartsWith (PyStr.pyStrip s) fenceToken = true) :
    ∃ t, PyStr.stripList s.data = '`' :: t := by
  have h' : (['`', '`', '`'] : List Char).isPrefixOf (PyStr.stripList s.data) = true := h
  cases hl : PyStr.stripList s.data with
  | nil => rw [hl] at h'; exact absurd h' (by decide)
  | cons c rest =>
    rw [hl] at h'
    simp [List.isPrefixOf] at h'
    exact ⟨rest, congrArg (· :: rest) h'.1.symm⟩

theorem jsonLoads_none_of_fence (s : String)
    (h : PyStr.pyStartsWith (PyStr.pyStrip s) fenceToken = true) :
    jsonLoads s = none := by
  obtain ⟨t, ht⟩ := strip_backtick_of_startsWith s h
  obtain ⟨c, rest, hskip, hset⟩ := skipWs_head_of_strip_backtick s.data t ht
  unfold jsonLoads
  rw [parseValue_bad_head _ s.data c rest hskip hset]

/-- C2: a string whose stripped form starts with a triple-backtick fence
never parses strictly (so the recovery path runs); when the recovered
fence interior parses as a non-empty mapping, `validate_json_structure`
succeeds and returns that mapping (cleaned). -/
theorem claim_C2_fence_recovery (s : String) (kvs : List (String × JsonValue))
    (hfence : PyStr.pyStartsWith (PyStr.pyStrip s) fenceToken = true)
    (hinterior : jsonLoads (extractFenced (PyStr.pyStrip s)) = some (.obj kvs))
    (hne : kvs ≠ []) :
    (validate_json_structure (.str s)).is_valid = true ∧
    (validate_json_structure (.str s)).data = some (cleanEntries kvs []) := by
  have hnone := jsonLoads_none_of_fence s hfence
  cases kvs with
  | nil => exact absurd rfl hne
  | cons p rest =>
    simp [validate_json_structure, hnone, hfence, hinterior, checkStructure]

/-- Witness for C2 at the spec example: recovering `{"a":1}` from its
fenced form yields a valid result carrying exactly that mapping. -/
theorem claim_C2_fence_recovery_witness :
    (validate_json_structure (.str "```json\n\x7b\"a\":1\x7d\n```")).is_valid = true ∧
    (validate_json_structure (.str "```json\n\x7b\"a\":1\x7d\n```")).data =
      some [("a", JsonValue.int 1)] := by
  have h := claim_C2_fence_recovery "```json\n\x7b\"a\":1\x7d\n```"
    [("a", JsonValue.int 1)] rfl rfl (by simp)
  exact ⟨h.1, h.2.trans rfl⟩

/-- Spec-side description (claim C3) of the rows one mapping item of a
list section contributes: one row per key other than `"comments"`
(case-insensitive), the item comment attached to the first emitted row
only, an empty comment on all later rows. -/
def specItemRows (kvs : List (String × JsonValue)) (itemComment : JsonValue) :
    List Row :=
  match kvs.filter (fun p => PyStr.pyLower p.1 != commentsKeyName) with
  | [] => []
  | q :: rest =>
    ⟨q.1, format_value q.2, itemComment⟩ ::
      rest.map (fun p => ⟨p.1, format_value p.2, .str ""⟩)

theorem flattenItemEntries_after_first (kvs : List (String × JsonValue))
    (c : JsonValue) :
    flattenItemEntries kvs c false =
      (kvs.filter (fun p => PyStr.pyLower p.1 != commentsKeyName)).map
        (fun p => ⟨p.1, format_value p.2, .str ""⟩) := by
  induction kvs with
  | nil => rfl
  | cons p rest ih =>
    by_cases hk : PyStr.pyLower p.1 = commentsKeyName
    · simpa [flattenItemEntries, hk, List.filter_cons] using ih
    · simp [flattenItemEntries, hk, List.filter_cons, ih]

theorem flattenItemEntries_spec (kvs : List (String × JsonValue)) (c : JsonValue) :
    flattenItemEntries kvs c true = specItemRows kvs c := by
  induction kvs with
  | nil => rfl
  | cons p rest ih =>
    by_cases hk : PyStr.pyLower p.1 = commentsKeyName
    · simpa [flattenItemEntries, specItemRows, hk, List.filter_cons] using ih
    · simp [flattenItemEntries, specItemRows, hk, List.filter_cons,
        flattenItemEntries_after_first]

/-- C3: a mapping item inside a list section contributes exactly one row
per key other than `"comments"` (case-insensitive), with the item's own
`"comments"` entry as the comment of the first emitted row only and an
empty comment afterwards; flattening
`{"Education": [{"school": "X", "year": "2020", "comments": "verified"}]}`
yields exactly `(1,"school","X","verified")` and `(2,"year","2020","")`. -/
theorem claim_C3_list_item_rows :
    (∀ (kvs : List (String × JsonValue)) (rest : List JsonValue) (i : Nat),
        flattenListItems (.obj kvs :: rest) i =
          specItemRows kvs (dictGetD kvs commentsKeyName (.str "")) ++
            flattenListItems rest (i + 1)) ∧
    json_to_dataframe [("Education",
        .list [.obj [("school", .str "X"), ("year", .str "2020"),
          ("comments", .str "verified")]])] =
      [⟨1, "school", "X", .str "verified"⟩, ⟨2, "year", "2020", .str ""⟩] := by
  refine ⟨?_, rfl⟩
  intro kvs rest i
  simp [flattenListItems, flattenItemEntries_spec]

/-- C4: `_format_value` joins a list's element string-forms with `", "`,
renders a dict as its `"key: value"` pairs joined with `"; "` after
dropping `"comments"` keys case-insensitively (empty if nothing remains),
renders `None` as the empty string and anything else as its direct string
form; in particular `["Python","Go"]` gives `"Python, Go"` and
`{"level":"Expert","comments":"x"}` gives `"level: Expert"`. -/
theorem claim_C4_format_value :
    (∀ xs : List JsonValue,
        format_value (.list xs) = String.intercalate ", " (xs.map pyStr)) ∧
    (∀ kvs : List (String × JsonValue),
        format_value (.obj kvs) =
          if (kvs.filter (fun p => PyStr.pyLower p.1 != commentsKeyName)).isEmpty
          then ""
          else String.intercalate "; "
            ((kvs.filter (fun p => PyStr.pyLower p.1 != commentsKeyName)).map
              (fun p => p.1 ++ ": " ++ pyStr p.2))) ∧
    format_value .null = "" ∧
    (∀ b, format_value (.bool b) = pyStr (.bool b)) ∧
    (∀ n, format_value (.int n) = pyStr (.int n)) ∧
    (∀ s, format_value (.str s) = pyStr (.str s)) ∧
    format_value (.list [.str "Python", .str "Go"]) = "Python, Go" ∧
    format_value (.obj [("level", .str "Expert"), ("comments", .str "x")]) =
      "level: Expert" :=
  ⟨fun _ => rfl, fun _ => rfl, rfl, fun _ => rfl, fun _ => rfl, fun _ => rfl,
    rfl, rfl⟩

theorem validate_str (s : String) :
    validate_json_structure (.str s) =
      match jsonLoads s with
      | some v => checkStructure v
      | none =>
        if PyStr.pyStartsWith (PyStr.pyStrip s) fenceToken = true then
          match jsonLoads (extractFenced (PyStr.pyStrip s)) with
          | some v => checkStructure v
          | none => ⟨false, none, [parseFailureMsg], []⟩
        else ⟨false, none, [parseFailureMsg], []⟩ := rfl

theorem checkStructure_non_obj (v : JsonValue) (h : ∀ kvs, v ≠ .obj kvs) :
    checkStructure v = ⟨false, none, [typeErrorMsg v], []⟩ := by
  cases v with
  | obj kvs => exact absurd rfl (h kvs)
  | null => rfl
  | bool b => rfl
  | int n => rfl
  | str s => rfl
  | list xs => rfl

/-- C5: a non-mapping input — passed directly or obtained from a
successful parse — is rejected with the single error naming the observed
type and no data; an empty mapping is rejected with the dedicated
emptiness error and no data, as in `validate({})`. -/
theorem claim_C5_shape_errors :
    (∀ v : JsonValue, (∀ kvs, v ≠ .obj kvs) → (∀ s, v ≠ .str s) →
        validate_json_structure v =
          ⟨false, none, ["Expected dictionary, got " ++ pyTypeName v], []⟩) ∧
    (∀ (s : String) (v : JsonValue), jsonLoads s = some v →
        (∀ kvs, v ≠ .obj kvs) →
        validate_json_structure (.str s) =
          ⟨false, none, ["Expected dictionary, got " ++ pyTypeName v], []⟩) ∧
    validate_json_structure (.obj []) = ⟨false, none, [emptyDataMsg], []⟩ := by
  refine ⟨?_, ?_, rfl⟩
  · intro v hobj hstr
    have hv : validate_json_structure v = checkStructure v := by
      cases v with
      | str s => exact absurd rfl (hstr s)
      | null => rfl
      | bool b => rfl
      | int n => rfl
      | list xs => rfl
      | obj kvs => rfl
    rw [hv]
    exact checkStructure_non_obj v hobj
  · intro s v hparse hobj
    rw [validate_str, hparse]
    exact checkStructure_non_obj v hobj

/-- Witness for C5: a directly-passed list, a string parsing to a list,
and the empty mapping are all rejected with the described errors. -/
theorem claim_C5_shape_errors_witness :
    validate_json_structure (.list [.int 1]) =
      ⟨false, none, ["Expected dictionary, got list"], []⟩ ∧
    validate_json_structure (.str "[1, 2]") =
      ⟨false, none, ["Expected dictionary, got list"], []⟩ ∧
    validate_json_structure (.obj []) = ⟨false, none, [emptyDataMsg], []⟩ := by
  refine ⟨?_, ?_, claim_C5_shape_errors.2.2⟩
  · exact (claim_C5_shape_errors.1 (.list [.int 1])
      (fun kvs h => JsonValue.noConfusion h)
      (fun s h => JsonValue.noConfusion h)).trans rfl
  · exact (claim_C5_shape_errors.2.1 "[1, 2]" (.list [.int 1, .int 2]) rfl
      (fun kvs h => JsonValue.noConfusion h)).trans rfl

/-- C6: when the strict parse fails and fence recovery is inapplicable or
also fails, the result is invalid with exactly one parse error and no
data; in particular `validate("")` and `validate("{")` behave this way. -/
theorem claim_C6_parse_failure :
    (∀ s : String, jsonLoads s = none →
        (PyStr.pyStartsWith (PyStr.pyStrip s) fenceToken = true →
          jsonLoads (extractFenced (PyStr.pyStrip s)) = none) →
        validate_json_structure (.str s) = ⟨false, none, [parseFailureMsg], []⟩) ∧
    validate_json_structure (.str "") = ⟨false, none, [parseFailureMsg], []⟩ ∧
    validate_json_structure (.str "\x7b") = ⟨false, none, [parseFailureMsg], []⟩ := by
  refine ⟨?_, rfl, rfl⟩
  intro s h1 h2
  rw [validate_str, h1]
  by_cases hf : PyStr.pyStartsWith (PyStr.pyStrip s) fenceToken = true
  · rw [if_pos hf, h2 hf]
  · rw [if_neg hf]

/-- Witness for C6 at an unfenced non-JSON string. -/
theorem claim_C6_parse_failure_witness :
    validate_json_structure (.str "not json") =
      ⟨false, none, [parseFailureMsg], []⟩ :=
  claim_C6_parse_failure.1 "not json" rfl (fun h => by exact absurd h (by decide))

theorem dictInsert_fresh (acc : List (String × JsonValue)) (k : String)
    (v : JsonValue) (h : ∀ q ∈ acc, q.1 ≠ k) :
    dictInsert acc k v = acc ++ [(k, v)] := by
  rw [dictInsert, if_neg]
  simp only [List.any_eq_true, decide_eq_true_eq, not_exists, not_and]
  exact fun q hq => h q hq

theorem cleanEntries_eq_map (kvs acc : List (String × JsonValue))
    (hfresh : ∀ p ∈ kvs, ∀ q ∈ acc, q.1 ≠ PyStr.pyStrip p.1)
    (hnd : (kvs.map (fun p => PyStr.pyStrip p.1)).Nodup) :
    cleanEntries kvs acc =
      acc ++ kvs.map (fun p => (PyStr.pyStrip p.1, cleanFieldValue p.2)) := by
  induction kvs generalizing acc with
  | nil => simp [cleanEntries]
  | cons p rest ih =>
    obtain ⟨k, v⟩ := p
    rw [cleanEntries, dictInsert_fresh acc (PyStr.pyStrip k) (cleanFieldValue v)
      (hfresh (k, v) (List.mem_cons_self _ _))]
    rw [List.map_cons, List.nodup_cons] at hnd
    rw [ih (acc ++ [(PyStr.pyStrip k, cleanFieldValue v)]) ?_ hnd.2]
    · simp
    · intro q hq r hr
      rcases List.mem_append.1 hr with hr | hr
      · exact hfresh q (List.mem_cons_of_mem _ hq) r hr
      · have hr2 : r = (PyStr.pyStrip k, cleanFieldValue v) := by simpa using hr
        subst hr2
        show PyStr.pyStrip k ≠ PyStr.pyStrip q.1
        intro hcontra
        apply hnd.1
        show PyStr.pyStrip k ∈ rest.map (fun p => PyStr.pyStrip p.1)
        rw [hcontra]
        exact List.mem_map_of_mem (fun p => PyStr.pyStrip p.1) hq

/-- C7: normalization trims each mapping key and recurses into each value
(stated for mappings whose trimmed keys stay distinct, so no Python-dict
key collision occurs); a string that is a direct mapping value is trimmed
and is never turned into null (the empty string stays the empty string);
inside a sequence only mapping elements are recursed into, scalars —
strings included — pass through unchanged. -/
theorem claim_C7_normalization :
    (∀ kvs : List (String × JsonValue),
        (kvs.map (fun p => PyStr.pyStrip p.1)).Nodup →
        clean_data (.obj kvs) =
          .obj (kvs.map (fun p => (PyStr.pyStrip p.1, cleanFieldValue p.2)))) ∧
    (∀ s : String, cleanFieldValue (.str s) = .str (PyStr.pyStrip s)) ∧
    cleanFieldValue (.str "") = .str "" ∧
    (∀ s : String, cleanFieldValue (.str s) ≠ .null) ∧
    (∀ items : List JsonValue,
        cleanFieldValue (.list items) =
          .list (items.map (fun it =>
            match it with
            | .obj kvs => clean_data (.obj kvs)
            | x => x))) ∧
    (∀ kvs, cleanFieldValue (.obj kvs) = clean_data (.obj kvs)) := by
  refine ⟨?_, ?_, rfl, ?_, ?_, fun kvs => rfl⟩
  · intro kvs hnd
    rw [clean_data, cleanEntries_eq_map kvs [] (by simp) hnd, List.nil_append]
  · intro s
    rw [cleanFieldValue]
    by_cases hs : s = ""
    · subst hs; rfl
    · rw [if_neg hs]
  · intro s
    rw [cleanFieldValue]
    split <;> exact fun h => JsonValue.noConfusion h
  · intro items
    rw [cleanFieldValue]
    congr 1
    induction items with
    | nil => rfl
    | cons it rest ih =>
      cases it with
      | obj kvs => simp [cleanItems, ih, clean_data]
      | null => simp [cleanItems, ih]
      | bool b => simp [cleanItems, ih]
      | int n => simp [cleanItems, ih]
      | str s => simp [cleanItems, ih]
      | list xs => simp [cleanItems, ih]

/-- Witness for C7: keys are trimmed, a direct string value is trimmed,
and a string inside a list survives untrimmed. -/
theorem claim_C7_normalization_witness :
    clean_data (.obj [(" a ", .str " x "), ("b", .list [.str " y "])]) =
      .obj [("a", .str "x"), ("b", .list [.str " y "])] := by
  have h := claim_C7_normalization.1 [(" a ", .str " x "), ("b", .list [.str " y "])]
    (by decide)
  exact h.trans rfl

/-- C8: a non-empty mapping whose cleaned form has fewer than two keys
validates successfully, with the cleaned data and the incompleteness
warning attached. -/
theorem claim_C8_few_sections (kvs : List (String × JsonValue))
    (hne : kvs ≠ []) (hfew : (cleanEntries kvs []).length < 2) :
    validate_json_structure (.obj kvs) =
      ⟨true, some (cleanEntries kvs []), [], [fewSectionsWarning]⟩ := by
  cases kvs with
  | nil => exact absurd rfl hne
  | cons p rest =>
    have hc : checkStructure (.obj (p :: rest)) =
        ⟨true, some (cleanEntries (p :: rest) []), [],
          if (cleanEntries (p :: rest) []).length < 2 then [fewSectionsWarning]
          else []⟩ := rfl
    show checkStructure (.obj (p :: rest)) = _
    rw [hc, if_pos hfew]

/-- Witness for C8 at the spec example `validate({"a":1})`: valid, with
the warning present. -/
theorem claim_C8_few_sections_witness :
    validate_json_structure (.obj [("a", .int 1)]) =
      ⟨true, some [("a", JsonValue.int 1)], [], [fewSectionsWarning]⟩ := by
  have h := claim_C8_few_sections [("a", .int 1)] (by simp) (by decide)
  exact h.trans rfl

theorem checkStructure_shape (v : JsonValue) :
    ((checkStructure v).is_valid = true ∧ (checkStructure v).data ≠ none ∧
      (checkStructure v).errors = []) ∨
    ((checkStructure v).is_valid = false ∧ (checkStructure v).data = none ∧
      (checkStructure v).errors ≠ []) := by
  have hne : ∀ m : String, ¬([m] : List String) = [] := fun m h => List.noConfusion h
  cases v with
  | obj kvs =>
    cases kvs with
    | nil => exact Or.inr ⟨rfl, rfl, hne emptyDataMsg⟩
    | cons p rest =>
      exact Or.inl ⟨rfl, fun h => Option.noConfusion h, rfl⟩
  | null => exact Or.inr ⟨rfl, rfl, hne (typeErrorMsg .null)⟩
  | bool b => exact Or.inr ⟨rfl, rfl, hne (typeErrorMsg (.bool b))⟩
  | int n => exact Or.inr ⟨rfl, rfl, hne (typeErrorMsg (.int n))⟩
  | str s => exact Or.inr ⟨rfl, rfl, hne (typeErrorMsg (.str s))⟩
  | list xs => exact Or.inr ⟨rfl, rfl, hne (typeErrorMsg (.list xs))⟩

/-- C9: `validate_json_structure` is a total function of its input — for
every string and every structured tree it returns a structured outcome,
either valid with data present and no errors, or invalid with no data and
a non-empty error list; no failure escapes as an exception. -/
theorem claim_C9_total_outcome (input : JsonValue) :
    ((validate_json_structure input).is_valid = true ∧
      (validate_json_structure input).data ≠ none ∧
      (validate_json_structure input).errors = []) ∨
    ((validate_json_structure input).is_valid = false ∧
      (validate_json_structure input).data = none ∧
      (validate_json_structure input).errors ≠ []) := by
  cases input with
  | str s =>
    rw [validate_str]
    cases hp : jsonLoads s with
    | some v => exact checkStructure_shape v
    | none =>
      by_cases hf : PyStr.pyStartsWith (PyStr.pyStrip s) fenceToken = true
      · rw [if_pos hf]
        cases hq : jsonLoads (extractFenced (PyStr.pyStrip s)) with
        | some v => exact checkStructure_shape v
        | none => exact Or.inr ⟨rfl, rfl, fun h => List.noConfusion h⟩
      · rw [if_neg hf]
        exact Or.inr ⟨rfl, rfl, fun h => List.noConfusion h⟩
  | obj kvs => exact checkStructure_shape (.obj kvs)
  | null => exact checkStructure_shape .null
  | bool b => exact checkStructure_shape (.bool b)
  | int n => exact checkStructure_shape (.int n)
  | list xs => exact checkStructure_shape (.list xs)

theorem dictGetD_absent (kvs : List (String × JsonValue)) (k : String)
    (d : JsonValue) (h : hasKey kvs k = false) : dictGetD kvs k d = d := by
  rw [dictGetD, List.find?_eq_none.2, ]
  intro p hp
  rw [hasKey, List.any_eq_false] at h
  exact h p hp

theorem specItemRows_empty_comment (kvs : List (String × JsonValue)) :
    specItemRows kvs (.str "") =
      (kvs.filter (fun p => PyStr.pyLower p.1 != commentsKeyName)).map
        (fun p => ⟨p.1, format_value p.2, .str ""⟩) := by
  cases hf : kvs.filter (fun p => PyStr.pyLower p.1 != commentsKeyName) with
  | nil => simp [specItemRows, hf]
  | cons q rest => simp [specItemRows, hf]

/-- C10: skipping a key as a row key compares case-insensitively (a
`"Comments"` entry is never emitted as a row), but comment extraction
compares case-sensitively: a nested mapping value holding `"Comments"`
but not `"comments"` triggers no extraction — the row's comment is empty
and the whole mapping goes to `_format_value` (which itself drops the
`"Comments"` pair case-insensitively) — and a list item spelling its
comment key `"Comments"` has that key skipped as a row key while its text
is attached to no row: every row of the item carries the empty comment. -/
theorem claim_C10_comment_case_sensitivity :
    (∀ (k : String) (v : JsonValue) (rest : List (String × JsonValue)),
        PyStr.pyLower k = commentsKeyName →
        flattenObjEntries ((k, v) :: rest) = flattenObjEntries rest) ∧
    (∀ (k : String) (kvs rest : List (String × JsonValue)),
        PyStr.pyLower k ≠ commentsKeyName →
        hasKey kvs commentsKeyName = false →
        hasKey kvs "Comments" = true →
        flattenObjEntries ((k, .obj kvs) :: rest) =
          ⟨k, format_value (.obj kvs), .str ""⟩ :: flattenObjEntries rest) ∧
    (∀ (kvs : List (String × JsonValue)) (rest : List JsonValue) (i : Nat),
        hasKey kvs commentsKeyName = false →
        hasKey kvs "Comments" = true →
        flattenListItems (.obj kvs :: rest) i =
          (kvs.filter (fun p => PyStr.pyLower p.1 != commentsKeyName)).map
            (fun p => ⟨p.1, format_value p.2, .str ""⟩) ++
            flattenListItems rest (i + 1)) := by
  refine ⟨?_, ?_, ?_⟩
  · intro k v rest hk
    simp [flattenObjEntries, hk]
  · intro k kvs rest hk hnc _
    simp [flattenObjEntries, hk, hnc]
  · intro kvs rest i hnc _
    show flattenItemEntries kvs (dictGetD kvs commentsKeyName (.str "")) true ++
        flattenListItems rest (i + 1) = _
    rw [dictGetD_absent kvs commentsKeyName (.str "") hnc,
      flattenItemEntries_spec, specItemRows_empty_comment]

/-- Witness for C10: a `"Comments"` entry emits no row; a nested mapping
with `"Comments"` only is formatted whole with an empty row comment; a
list item with `"Comments"` only gets empty comments on all its rows. -/
theorem claim_C10_comment_case_sensitivity_witness :
    flattenObjEntries [("Comments", .str "x")] = [] ∧
    flattenObjEntries
        [("skill", .obj [("level", .str "Expert"), ("Comments", .str "x")])] =
      [⟨"skill", "level: Expert", .str ""⟩] ∧
    flattenListItems [.obj [("level", .str "Expert"), ("Comments", .str "x")]] 0 =
      [⟨"level", "Expert", .str ""⟩] := by
  refine ⟨?_, ?_, ?_⟩
  · exact claim_C10_comment_case_sensitivity.1 "Comments" (.str "x") [] (by decide)
  · exact (claim_C10_comment_case_sensitivity.2.1 "skill"
      [("level", .str "Expert"), ("Comments", .str "x")] [] (by decide) rfl rfl).trans
      rfl
  · exact (claim_C10_comment_case_sensitivity.2.2
      [("level", .str "Expert"), ("Comments", .str "x")] [] 0 rfl rfl).trans rfl
